import Mathlib

/-!
Verification development for the gate-analysis / report-generation core of the
fast-fourier-transform-ip repository.  The Python sources
(`flow/yosys/gate_analysis.py`, `scripts/generate_memory_analysis_report.py`,
`scripts/test_runner.py`) are shallowly embedded below: file contents are
`List Char`, the file system is a function `String → Option (List Char)`
(`none` = the path does not exist), Python dicts with insertion order are
association lists, Python floats are modelled as exact rationals, and the
regular-expression searches of the scripts are modelled by direct scanners
with the same leftmost-match, greedy semantics (the character classes
`\s`, `\d`, `\w` are modelled over ASCII, which covers every artifact the
scripts consume).
-/

set_option maxRecDepth 40000
set_option maxHeartbeats 2000000

/-- Python regex class `\s` restricted to ASCII: space, tab, newline,
carriage return, vertical tab, form feed. -/
def isSpaceChar (c : Char) : Bool :=
  c = ' ' || c = '\t' || c = '\n' || c = '\r' || c = '\x0b' || c = '\x0c'

/-- Python regex class `\w` restricted to ASCII: letters, digits, underscore. -/
def isWordChar (c : Char) : Bool :=
  c.isAlphanum || c = '_'

/-- Numeric value of a run of decimal digit characters, as Python
`int(match.group(1))` computes it. -/
def digitsVal (ds : List Char) : Nat :=
  ds.foldl (fun a c => a * 10 + (c.toNat - 48)) 0

/-- Consume the regex fragment `\s+`: at least one whitespace character, then
greedily all following whitespace; return the remainder, or `none` when the
input does not start with whitespace. -/
def dropSpacesIfAny (r : List Char) : Option (List Char) :=
  match r with
  | [] => none
  | c :: t => if isSpaceChar c then some (t.dropWhile isSpaceChar) else none

/-- Consume the regex fragment `(\d+)` greedily: the maximal run of digits at
the head of the input (there must be at least one), returned as its numeric
value. -/
def readNumber (r : List Char) : Option Nat :=
  match r with
  | [] => none
  | c :: t => if c.isDigit then some (digitsVal ((c :: t).takeWhile Char.isDigit)) else none

/-- Match the regex `<label>\s+(\d+)` anchored at the start of `s` (the shape
of every `re.search` pattern in `parse_synthesis_stats`), returning the
captured integer.  The character classes of the pattern are pairwise disjoint
and disjoint from the literal label, so the greedy scan needs no
backtracking. -/
def matchLabelNum (label s : List Char) : Option Nat :=
  if label.isPrefixOf s then
    match dropSpacesIfAny (s.drop label.length) with
    | some rest => readNumber rest
    | none => none
  else none

/-- Leftmost match of `<label>\s+(\d+)` anywhere in `s`, as `re.search` finds
it: try each start position from the left, first success wins. -/
def searchLabelNum (label : List Char) : List Char → Option Nat
  | [] => none
  | c :: t =>
    match matchLabelNum label (c :: t) with
    | some n => some n
    | none => searchLabelNum label t

/-- Metric labels of `parse_synthesis_stats` (the literal text each
`re.search` pattern must find before `\s+(\d+)`). -/
def lblCells : List Char := "Number of cells:".toList

def lblWires : List Char := "Number of wires:".toList

def lblWireBits : List Char := "Number of wire bits:".toList

def lblPublicWires : List Char := "Number of public wires:".toList

def lblPublicWireBits : List Char := "Number of public wire bits:".toList

def lblPorts : List Char := "Number of ports:".toList

def lblPortBits : List Char := "Number of port bits:".toList

def lblMemories : List Char := "Number of memories:".toList

def lblMemoryBits : List Char := "Number of memory bits:".toList

def lblProcesses : List Char := "Number of processes:".toList

/-- The `cell_patterns` (and, in `analyze_gates`, `gate_patterns`) table:
gate-type tag paired with the literal text its regex matches (the raw pattern
`\\\$_AND_` matches the characters `\$_AND_`).  Both source dicts list the
same 18 markers in this order. -/
def gateMarkers : List (String × List Char) :=
  [("AND", "\\$_AND_".toList),
   ("OR", "\\$_OR_".toList),
   ("XOR", "\\$_XOR_".toList),
   ("XNOR", "\\$_XNOR_".toList),
   ("ANDNOT", "\\$_ANDNOT_".toList),
   ("NAND", "\\$_NAND_".toList),
   ("NOR", "\\$_NOR_".toList),
   ("NOT", "\\$_NOT_".toList),
   ("MUX", "\\$_MUX_".toList),
   ("DFF", "\\$_DFF_".toList),
   ("DFFE", "\\$_DFFE_".toList),
   ("LATCH", "\\$_DLATCH_".toList),
   ("ALDFFE", "\\$_ALDFFE_".toList),
   ("MUL", "\\$_MUL_".toList),
   ("ADD", "\\$_ADD_".toList),
   ("SUB", "\\$_SUB_".toList),
   ("ROM", "\\$_ROM_".toList),
   ("RAM", "\\$_RAM_".toList)]

/-- Result record of `parse_synthesis_stats`: the Python dict `stats`.
Fields absent from the dict are `none`; `cell_breakdown` is always present
(possibly empty), mirroring line 107 of the source. -/
structure SynthStats where
  cells : Option Nat
  wires : Option Nat
  wire_bits : Option Nat
  public_wires : Option Nat
  public_wire_bits : Option Nat
  ports : Option Nat
  port_bits : Option Nat
  memories : Option Nat
  memory_bits : Option Nat
  processes : Option Nat
  cell_breakdown : List (String × Nat)
  deriving Repr, DecidableEq

/-- Embedding of `parse_synthesis_stats` applied to the content of an
existing stats file: ten `re.search` extractions plus the cell-breakdown
second pass over `cell_patterns`. -/
def parseSynthesisStats (content : List Char) : SynthStats :=
  { cells := searchLabelNum lblCells content
    wires := searchLabelNum lblWires content
    wire_bits := searchLabelNum lblWireBits content
    public_wires := searchLabelNum lblPublicWires content
    public_wire_bits := searchLabelNum lblPublicWireBits content
    ports := searchLabelNum lblPorts content
    port_bits := searchLabelNum lblPortBits content
    memories := searchLabelNum lblMemories content
    memory_bits := searchLabelNum lblMemoryBits content
    processes := searchLabelNum lblProcesses content
    cell_breakdown :=
      gateMarkers.filterMap (fun p => (searchLabelNum p.2 content).map (fun n => (p.1, n))) }

/-- Embedding of `parse_synthesis_stats` including its `os.path.exists`
guard: a missing file yields `none` (the function returns `None`), an
existing file is read and parsed. -/
def parseSynthesisStatsFile (fs : String → Option (List Char)) (statsFile : String) :
    Option SynthStats :=
  (fs statsFile).map parseSynthesisStats

/-- Match the regex fragment `<marker>\s+` anchored at the start of `s` (the
shape of every `gate_patterns` pattern in `analyze_gates`), returning the
remainder after the whole greedy match. -/
def matchMarkerWS (marker s : List Char) : Option (List Char) :=
  if marker.isPrefixOf s then dropSpacesIfAny (s.drop marker.length) else none

/-- Number of non-overlapping matches of `<marker>\s+` in `s`, scanning left
to right and resuming after each match, exactly as
`len(re.findall(pattern, content))` counts them in `analyze_gates`. -/
def countMarker (marker : List Char) : List Char → Nat
  | [] => 0
  | c :: t =>
    match h : matchMarkerWS marker (c :: t) with
    | some rest => countMarker marker rest + 1
    | none => countMarker marker t
termination_by s => s.length
decreasing_by
  · have hle : ∀ (l : List Char), (l.dropWhile isSpaceChar).length ≤ l.length := by
      intro l
      induction l with
      | nil => simp
      | cons a l2 ih =>
        by_cases ha : isSpaceChar a
        · rw [List.dropWhile_cons_of_pos ha]
          exact Nat.le_succ_of_le ih
        · rw [List.dropWhile_cons_of_neg (by simp [ha])]
    simp only [matchMarkerWS] at h
    by_cases hp : marker.isPrefixOf (c :: t)
    · rw [if_pos hp] at h
      have hlen : ((c :: t).drop marker.length).length ≤ (c :: t).length := by
        rw [List.length_drop]
        omega
      cases hr : (c :: t).drop marker.length with
      | nil => rw [hr] at h; simp [dropSpacesIfAny] at h
      | cons a t2 =>
        rw [hr] at h
        simp only [dropSpacesIfAny] at h
        by_cases ha : isSpaceChar a
        · rw [if_pos ha] at h
          cases h
          have h1 : (t2.dropWhile isSpaceChar).length ≤ t2.length := hle t2
          have h2 : (a :: t2).length ≤ (c :: t).length := hr ▸ hlen
          simp only [List.length_cons] at h2 ⊢
          omega
        · rw [if_neg ha] at h; cases h
    · rw [if_neg hp] at h; cases h
  · simp

/-- Match the regex fragment `\w+` anchored at the start of the input: the
maximal run of word characters (at least one), returned with the
remainder. -/
def readWord (s : List Char) : Option (List Char × List Char) :=
  match s with
  | [] => none
  | c :: t =>
    if isWordChar c then some ((c :: t).takeWhile isWordChar, (c :: t).dropWhile isWordChar)
    else none

/-- Match the instantiation pattern `(\w+)\s+(\w+)\s*\(` of `analyze_gates`
anchored at the start of `s`, returning the two captured identifiers and the
remainder after the match.  The classes `\w`, `\s` and the literal `(` are
pairwise disjoint, so the greedy scan needs no backtracking. -/
def matchInst (s : List Char) : Option (List Char × List Char × List Char) :=
  (readWord s).bind (fun pw1 =>
    (dropSpacesIfAny pw1.2).bind (fun r2 =>
      (readWord r2).bind (fun pw2 =>
        match pw2.2.dropWhile isSpaceChar with
        | '(' :: rest => some (pw1.1, pw2.1, rest)
        | _ => none)))

/-- All non-overlapping matches of `(\w+)\s+(\w+)\s*\(` in `s`, left to
right, resuming after each match, as `re.finditer(module_pattern, content)`
yields them; each element is the pair of captured groups. -/
def findInsts : List Char → List (List Char × List Char)
  | [] => []
  | c :: t =>
    match h : matchInst (c :: t) with
    | some (w1, w2, rest) => (w1, w2) :: findInsts rest
    | none => findInsts t
termination_by s => s.length
decreasing_by
  · have hle : ∀ (p : Char → Bool) (l : List Char), (l.dropWhile p).length ≤ l.length := by
      intro p l
      induction l with
      | nil => simp
      | cons a l2 ih =>
        by_cases ha : p a
        · rw [List.dropWhile_cons_of_pos ha]
          exact Nat.le_succ_of_le ih
        · rw [List.dropWhile_cons_of_neg (by simp [ha])]
    have hrw : ∀ (u : List Char) (w r : List Char), readWord u = some (w, r) →
        r.length < u.length := by
      intro u w r hu
      cases u with
      | nil => simp [readWord] at hu
      | cons a t2 =>
        simp only [readWord] at hu
        by_cases ha : isWordChar a
        · rw [if_pos ha] at hu
          cases hu
          rw [List.dropWhile_cons_of_pos ha]
          exact Nat.lt_succ_of_le (hle _ t2)
        · rw [if_neg ha] at hu; cases hu
    have hds : ∀ (u r : List Char), dropSpacesIfAny u = some r → r.length < u.length := by
      intro u r hu
      cases u with
      | nil => simp [dropSpacesIfAny] at hu
      | cons a t2 =>
        simp only [dropSpacesIfAny] at hu
        by_cases ha : isSpaceChar a
        · rw [if_pos ha] at hu
          cases hu
          exact Nat.lt_succ_of_le (hle _ t2)
        · rw [if_neg ha] at hu; cases hu
    simp only [matchInst, Option.bind_eq_some] at h
    obtain ⟨⟨wa, ra⟩, hpw1, r2, hr2, ⟨wb, rb⟩, hpw2, hfin⟩ := h
    have h1 : ra.length < (c :: t).length := hrw _ _ _ hpw1
    have h2 : r2.length < ra.length := hds _ _ hr2
    have h3 : rb.length < r2.length := hrw _ _ _ hpw2
    have h4 : (rb.dropWhile isSpaceChar).length ≤ rb.length := hle _ _
    split at hfin
    · rename_i rest2 heq
      cases hfin
      rw [heq] at h4
      simp only [List.length_cons] at h4 h1 ⊢
      omega
    · cases hfin
  · simp


/-- Python `dict.get(k, d)` over an insertion-ordered association list. -/
def dictGet (l : List (String × Nat)) (k : String) (d : Nat) : Nat :=
  match l with
  | [] => d
  | p :: t => if p.1 = k then p.2 else dictGet t k d

/-- Python `module_instances[name] += 1` after `module_instances[name] = 0`
when absent: bump the entry in place, or append a fresh entry with count 1
(insertion order preserved, as a Python dict does). -/
def bumpKey (k : String) : List (String × Nat) → List (String × Nat)
  | [] => [(k, 1)]
  | p :: t => if p.1 = k then (p.1, p.2 + 1) :: t else p :: bumpKey k t

/-- Python `str.startswith` via character lists. -/
def strStartsWith (pre s : String) : Bool :=
  pre.toList.isPrefixOf s.toList

/-- The literal exclusion list of `analyze_gates` lines 157-161: hardware
reserved words followed by the primitive-gate tag literals (each written with
a leading backslash in the source, `'\\$_AND_'` denoting the two characters
`\$` followed by `_AND_`). -/
def instanceExclusions : List String :=
  ["module", "input", "output", "wire", "\\$_AND_", "\\$_OR_", "\\$_XOR_", "\\$_XNOR_",
   "\\$_ANDNOT_", "\\$_NAND_", "\\$_NOR_", "\\$_NOT_", "\\$_MUX_", "\\$_DFF_", "\\$_DFFE_",
   "\\$_DLATCH_", "\\$_ALDFFE_", "\\$_MUL_", "\\$_ADD_", "\\$_SUB_", "\\$_ROM_", "\\$_RAM_"]

/-- The module-instance accumulation loop of `analyze_gates` lines 150-165:
for each `(\w+)\s+(\w+)\s*\(` match, count the first captured group unless it
is in the exclusion list or starts with `\$_`. -/
def moduleInstancesOf (content : List Char) : List (String × Nat) :=
  (findInsts content).foldl
    (fun acc g =>
      let moduleName := String.mk g.1
      if !(instanceExclusions.contains moduleName) && !(strStartsWith "\\$_" moduleName) then
        bumpKey moduleName acc
      else acc)
    []

/-- The `transistor_counts` table of `analyze_gates` lines 171-190. -/
def transistorCounts : List (String × Nat) :=
  [("AND", 6), ("OR", 6), ("XOR", 8), ("XNOR", 8), ("ANDNOT", 4), ("NAND", 4), ("NOR", 4),
   ("NOT", 2), ("MUX", 12), ("DFF", 20), ("DFFE", 24), ("LATCH", 12), ("ALDFFE", 28),
   ("MUL", 200), ("ADD", 50), ("SUB", 50), ("ROM", 100), ("RAM", 150)]

/-- Line 192-193 of the source:
`sum(gate_counts.get(gate, 0) * count for gate, count in transistor_counts.items())`. -/
def totalTransistorsOf (gateCounts : List (String × Nat)) : Nat :=
  (transistorCounts.map (fun p => dictGet gateCounts p.1 0 * p.2)).sum

/-- Result record of `analyze_gates` (the returned dict, lines 195-201). -/
structure GateAnalysis where
  gate_counts : List (String × Nat)
  module_instances : List (String × Nat)
  total_primitive_gates : Nat
  total_transistors : Nat
  file : String
  deriving Repr, DecidableEq

/-- Embedding of `analyze_gates` applied to the content of an existing
netlist file: presence-count every gate marker (a type enters `gate_counts`
only when `re.findall` returned a non-empty list), scan module
instantiations, and total the gates and transistors. -/
def analyzeGates (netlistFile : String) (content : List Char) : GateAnalysis :=
  let gateCounts := gateMarkers.filterMap (fun p =>
    let n := countMarker p.2 content
    if n = 0 then none else some (p.1, n))
  { gate_counts := gateCounts
    module_instances := moduleInstancesOf content
    total_primitive_gates := (gateCounts.map Prod.snd).sum
    total_transistors := totalTransistorsOf gateCounts
    file := netlistFile }

/-- Embedding of `analyze_gates` including its `os.path.exists` guard
(lines 113-115): a missing netlist yields `none`. -/
def analyzeGatesFile (fs : String → Option (List Char)) (netlistFile : String) :
    Option GateAnalysis :=
  (fs netlistFile).map (analyzeGates netlistFile)

/-- The per-gate transistor cost table inlined in `generate_gate_report`
lines 535-540 (textually identical to `transistor_counts`), applied with the
documented default of 6 for a gate type absent from the table:
`count * {...}.get(gate_type, 6)`. -/
def reportGateCostTable : List (String × Nat) :=
  [("AND", 6), ("OR", 6), ("XOR", 8), ("XNOR", 8), ("ANDNOT", 4), ("NAND", 4), ("NOR", 4),
   ("NOT", 2), ("MUX", 12), ("DFF", 20), ("DFFE", 24), ("LATCH", 12), ("ALDFFE", 28),
   ("MUL", 200), ("ADD", 50), ("SUB", 50), ("ROM", 100), ("RAM", 150)]

/-- Transistors attributed to one gate type in the report's breakdown table
(`generate_gate_report` line 535-540). -/
def perGateTransistors (gateType : String) (count : Nat) : Nat :=
  count * dictGet reportGateCostTable gateType 6

/-- ASIC sub-record of `calculate_die_size_estimates` (`estimates['asic_45nm']`).
The float values of the source are modelled as exact rationals. -/
structure AsicEstimate where
  gate_density : Nat
  logic_area : ℚ
  memory_area : ℚ
  total_area : ℚ
  deriving Repr, DecidableEq

/-- FPGA sub-record of `calculate_die_size_estimates` (`estimates['fpga']`). -/
structure FpgaEstimate where
  lut_usage : ℚ
  bram_blocks : Nat
  dsp_blocks : Nat
  ff_usage : ℚ
  deriving Repr, DecidableEq

/-- The two technology estimates returned by `calculate_die_size_estimates`. -/
structure DieSizeEstimates where
  asic_45nm : AsicEstimate
  fpga : FpgaEstimate
  deriving Repr, DecidableEq

/-- Embedding of `calculate_die_size_estimates` (lines 203-228), with the
source's float arithmetic carried out exactly over `ℚ` (so `0.5`, `0.3`,
`0.2` denote the exact decimals the source literals spell). -/
def calculateDieSizeEstimates (totalCells : Nat) : DieSizeEstimates :=
  let gateDensity45nm : Nat := 1200000
  let logicArea45nm : ℚ := (totalCells : ℚ) / (gateDensity45nm : ℚ)
  let memoryArea45nm : ℚ := 0.5
  let totalArea45nm : ℚ := logicArea45nm + memoryArea45nm
  { asic_45nm :=
      { gate_density := gateDensity45nm
        logic_area := logicArea45nm
        memory_area := memoryArea45nm
        total_area := totalArea45nm }
    fpga :=
      { lut_usage := (totalCells : ℚ) * 0.3
        bram_blocks := 64
        dsp_blocks := 50
        ff_usage := (totalCells : ℚ) * 0.2 } }

/-- Nearest integer to a rational, ties to even: the rounding CPython's
fixed-point float formatting applies, used here as the rational model of the
format specifier `.Nf`. -/
def roundHalfEvenQ (q : ℚ) : Int :=
  let f : Int := q.floor
  let r : ℚ := q - (f : ℚ)
  if r < 1 / 2 then f else if 1 / 2 < r then f + 1 else if f % 2 = 0 then f else f + 1

/-- Left-pad a digit string with zeros to the requested width. -/
def padZeros (s : String) (d : Nat) : String :=
  String.mk (List.replicate (d - s.length) '0') ++ s

/-- Rational model of Python fixed-point float formatting (format specifier
`.df`) for the non-negative values this
program formats: round to `d` decimal places and render with a fixed-width
fractional part (no decimal point when `d = 0`). -/
def formatFixed (q : ℚ) (d : Nat) : String :=
  let n : Nat := (roundHalfEvenQ (q * ((10 : ℚ) ^ d))).toNat
  if d = 0 then toString n
  else toString (n / 10 ^ d) ++ "." ++ padZeros (toString (n % 10 ^ d)) d

/-- Insert a thousands separator after every third digit, counting from the
right, over a reversed digit list (helper for `formatComma`). -/
def commaAux : List Char → List Char
  | a :: b :: c :: d :: rest => a :: b :: c :: ',' :: commaAux (d :: rest)
  | l => l

/-- Python thousands-separator formatting (format specifier `,`) for a
natural number. -/
def formatComma (n : Nat) : String :=
  String.mk (commaAux (toString n).toList.reverse).reverse

/-- The `modules` dict of `generate_comprehensive_gate_report` lines 234-241:
module file name paired with display name, in insertion order. -/
def modulesTable : List (String × String) :=
  [("fft_engine", "FFT Engine"),
   ("fft_control", "FFT Control"),
   ("rescale_unit", "Rescale Unit"),
   ("scale_factor_tracker", "Scale Factor Tracker"),
   ("twiddle_rom", "Twiddle ROM"),
   ("memory_interface", "Memory Interface")]

/-- The stats-file path: the synthesis directory joined with
`reports/<module_name>_stats.txt`. -/
def statsFilePath (synthesisDir moduleName : String) : String :=
  synthesisDir ++ "/reports/" ++ moduleName ++ "_stats.txt"

/-- The `module_stats` collection loop of lines 244-252: parse each module's
stats file and keep the modules whose file exists.  (`if stats:` tests dict
truthiness, and a parsed dict always carries the `cell_breakdown` key, so it
is truthy exactly when `parse_synthesis_stats` did not return `None`.) -/
def collectModuleStats (fs : String → Option (List Char)) (synthesisDir : String) :
    List (String × SynthStats) :=
  modulesTable.filterMap (fun p =>
    (fs (statsFilePath synthesisDir p.1)).map (fun content => (p.2, parseSynthesisStats content)))

/-- The running total of line 252: `total_cells += stats.get('cells', 0)`. -/
def totalCellsOf (moduleStats : List (String × SynthStats)) : Nat :=
  (moduleStats.map (fun p => p.2.cells.getD 0)).sum

/-- Substring test over character lists (Python `pat in s`). -/
def hasSub (pat : List Char) : List Char → Bool
  | [] => pat.isEmpty
  | c :: t => pat.isPrefixOf (c :: t) || hasSub pat t

/-- Substring test over strings (Python `pat in s`). -/
def hasSubStr (pat s : String) : Bool :=
  hasSub pat.toList s.toList

/-- The key-components text chosen by substring tests on the display name
(lines 277-290, repeated verbatim at lines 297-310). -/
def componentsFor (displayName : String) : String :=
  if hasSubStr "FFT Engine" displayName then "Butterfly operations, pipeline"
  else if hasSubStr "FFT Control" displayName then "FSM, control logic"
  else if hasSubStr "Rescale Unit" displayName then "Overflow detection, scaling logic"
  else if hasSubStr "Scale Factor" displayName then "Scale factor tracking logic"
  else if hasSubStr "Twiddle ROM" displayName then "2048-entry ROM, address logic"
  else if hasSubStr "Memory Interface" displayName then "APB interface (reduced memory)"
  else "Core logic"

/-- Python `str(stats.get(key, '-'))` as it lands in a summary-table cell. -/
def showCellOpt (o : Option Nat) : String :=
  match o with
  | some n => toString n
  | none => "-"

/-- One summary-table row for a parsed module (line 292). -/
def summaryRowFor (p : String × SynthStats) : String :=
  "| **" ++ p.1 ++ "** | " ++ showCellOpt p.2.cells ++ " | " ++ showCellOpt p.2.wire_bits ++
    " | " ++ showCellOpt p.2.public_wires ++ " | " ++ componentsFor p.1 ++ " |"

/-- Summary-table rows for the modules without a stats file (lines 295-312). -/
def missingRows (moduleStats : List (String × SynthStats)) : List String :=
  (modulesTable.map Prod.snd).filterMap (fun d =>
    if (moduleStats.map Prod.fst).contains d then none
    else some ("| **" ++ d ++ "** | - | - | - | " ++ componentsFor d ++ " |"))

/-- One area-efficiency bullet for a parsed module (lines 351-365): emitted
only when the module's cell count is positive and its display name matches
one of the six substring tests. -/
def areaEffLineFor (p : String × SynthStats) : Option String :=
  let cells := p.2.cells.getD 0
  if cells > 0 then
    if hasSubStr "FFT Engine" p.1 then
      some ("- **" ++ p.1 ++ "**: " ++ toString cells ++ " cells for butterfly operations and pipeline")
    else if hasSubStr "FFT Control" p.1 then
      some ("- **" ++ p.1 ++ "**: " ++ toString cells ++ " cells for FSM and control logic")
    else if hasSubStr "Rescale Unit" p.1 then
      some ("- **" ++ p.1 ++ "**: " ++ toString cells ++ " cells for complex arithmetic operations")
    else if hasSubStr "Scale Factor" p.1 then
      some ("- **" ++ p.1 ++ "**: " ++ toString cells ++ " cells for scale factor tracking")
    else if hasSubStr "Twiddle ROM" p.1 then
      some ("- **" ++ p.1 ++ "**: " ++ toString cells ++ " cells for 2048-entry ROM (efficient)")
    else if hasSubStr "Memory Interface" p.1 then
      some ("- **" ++ p.1 ++ "**: " ++ toString cells ++ " cells for APB interface (simplified)")
    else none
  else none

/-- One synthesis-quality row per display name (lines 415-429; the
found/not-found branches of the source emit identical rows, so the row
depends on the display name alone). -/
def qualityRowFor (d : String) : Option String :=
  if hasSubStr "FFT Engine" d || hasSubStr "FFT Control" d || hasSubStr "Rescale Unit" d ||
      hasSubStr "Scale Factor" d then
    some ("| " ++ d ++ " | ✅ PASS | ~30s | Excellent |")
  else if hasSubStr "Twiddle ROM" d then
    some ("| " ++ d ++ " | ✅ PASS | ~60s | Good |")
  else if hasSubStr "Memory Interface" d then
    some ("| " ++ d ++ " | ⚠️ PARTIAL | ~30s | Simplified |")
  else none

/-- The four header lines plus blank line that `generate_comprehensive_gate_report`
appends first (lines 259-263); the timestamp parameter stands for
`datetime.now().strftime('%Y-%m-%d %H:%M:%S')`, the single non-deterministic
input of the renderer. -/
def comprehensiveHeader (ts : String) : List String :=
  ["# Fast Fourier Transform IP Gate-Level Analysis Report",
   String.mk (List.replicate 65 '='),
   "",
   "Generated: " ++ ts,
   ""]

/-- Every report line appended after the header by
`generate_comprehensive_gate_report` (lines 266-477), in order. -/
def comprehensiveBody (fs : String → Option (List Char)) (synthesisDir : String) :
    List String :=
  let moduleStats := collectModuleStats fs synthesisDir
  let totalCells := totalCellsOf moduleStats
  let dieEstimates := calculateDieSizeEstimates totalCells
  let estimatedFull := if totalCells > 0 then totalCells * 2 else 15000
  ["## 📊 Gate Count Summary",
   "",
   "| Module | Cells | Wire Bits | Public Wires | Key Components |",
   "|--------|-------|-----------|--------------|----------------|"]
  ++ moduleStats.map summaryRowFor
  ++ missingRows moduleStats
  ++ ["",
      "### **Estimated Total Gate Count:**",
      "- **Reported Modules**: ~" ++ toString totalCells ++ " cells",
      "- **Estimated Full Design**: ~" ++ toString estimatedFull ++ " cells",
      "- **Memory Interface (full)**: Would add ~50,000-100,000 cells",
      "",
      "## 🏗️ Die Size Estimates",
      "",
      "### **ASIC Implementation (45nm process):**",
      "- **Gate Density**: ~" ++ formatComma dieEstimates.asic_45nm.gate_density ++ " gates/mm²",
      "- **Logic Area**: ~" ++ formatFixed dieEstimates.asic_45nm.logic_area 4 ++
        " mm² (core logic only)",
      "- **Memory Area**: ~" ++ formatFixed dieEstimates.asic_45nm.memory_area 1 ++
        " mm² (including 256KB memory)",
      "- **Total Estimated Area**: ~" ++ formatFixed dieEstimates.asic_45nm.total_area 4 ++ " mm²",
      "",
      "### **FPGA Implementation:**",
      "- **LUT Usage**: ~" ++ formatFixed dieEstimates.fpga.lut_usage 0 ++ " LUTs",
      "- **BRAM Usage**: ~" ++ toString dieEstimates.fpga.bram_blocks ++
        " BRAM blocks (for memory)",
      "- **DSP Usage**: ~" ++ toString dieEstimates.fpga.dsp_blocks ++
        " DSP blocks (for arithmetic)",
      "- **FF Usage**: ~" ++ formatFixed dieEstimates.fpga.ff_usage 0 ++ " flip-flops",
      "",
      "## ⚡ Performance Analysis",
      "",
      "### **Area Efficiency**"]
  ++ moduleStats.filterMap areaEffLineFor
  ++ ["- **Overall**: Good area efficiency for FFT implementation",
      "",
      "### **Design Trade-offs**",
      "- **Performance**: High-throughput FFT computation with pipeline",
      "- **Area**: Optimized for ASIC implementation",
      "- **Power**: Pipeline design for power efficiency",
      "- **Flexibility**: Configurable FFT size and scaling",
      "- **Memory**: Efficient memory usage with twiddle factor ROM",
      "",
      "## 🔧 Technology Considerations",
      "",
      "### **Standard Cell Mapping**",
      "FFT IP maps to standard cell library:",
      "- **Combinational**: AND, OR, XOR, MUX, NAND, NOR, NOT gates",
      "- **Sequential**: DFF, DFFE flip-flops",
      "- **Arithmetic**: Custom arithmetic units for butterfly operations",
      "- **Memory**: ROM macros for twiddle factors",
      "- **Compatibility**: Compatible with most CMOS processes",
      "",
      "### **Power Considerations**",
      "- **Static Power**: Moderate (sequential elements)",
      "- **Dynamic Power**: High (arithmetic operations, memory access)",
      "- **Clock Power**: Multiple clock domains",
      "- **Memory Power**: ROM/RAM access patterns",
      "",
      "### **FFT-Specific Considerations**",
      "- **Butterfly Operations**: Complex arithmetic dominates area",
      "- **Pipeline Efficiency**: Multi-stage pipeline for throughput",
      "- **Memory Bandwidth**: Twiddle factor and data memory access",
      "- **Scaling Logic**: Overflow prevention and scaling control",
      "- **Control Logic**: FSM for FFT stage management",
      "",
      "## 📈 Synthesis Quality Metrics",
      "",
      "### **Module Synthesis Status**",
      "| Module | Status | Synthesis Time | Quality |",
      "|--------|--------|----------------|---------|"]
  ++ (modulesTable.map Prod.snd).filterMap qualityRowFor
  ++ ["",
      "### **Quality Indicators**",
      "- **✅ All core modules synthesize successfully**",
      "- **✅ No timing violations detected**",
      "- **✅ Clean logic synthesis**",
      "- **⚠️ Memory interface needs optimization**",
      "- **✅ Ready for production with improvements**",
      "",
      "## 🎯 Recommendations for Production",
      "",
      "### **1. Memory Interface Optimization**",
      "- **Option A**: Use external memory controller for large memory arrays",
      "- **Option B**: Implement memory interface with configurable memory size",
      "- **Option C**: Use memory generator for synthesis (e.g., Xilinx BRAM, Intel M20K)",
      "",
      "### **2. Synthesis Flow Improvements**",
      "- Implement incremental synthesis for faster iterations",
      "- Add synthesis constraints for timing optimization",
      "- Use vendor-specific synthesis tools for production",
      "- Add power analysis with actual switching activity",
      "",
      "### **3. Verification Strategy**",
      "- Create synthesis regression tests",
      "- Implement automated synthesis checking",
      "- Add synthesis timing analysis",
      "- Perform power analysis with realistic workloads",
      "",
      "## 🏆 Conclusion",
      "",
      "The FFT IP demonstrates excellent synthesis quality with:",
      "- **Solid core logic**: All main modules synthesize successfully",
      "- **Good area efficiency**: Reasonable gate counts for functionality",
      "- **Production ready**: Core FFT logic is ready for ASIC/FPGA implementation",
      "- **Memory optimization needed**: Large memory array requires optimization",
      "",
      "**Next Steps**:",
      "1. Implement optimized memory interface",
      "2. Add synthesis constraints and timing analysis",
      "3. Create automated synthesis regression tests",
      "4. Optimize for target FPGA/ASIC technology",
      "5. Perform power analysis with realistic workloads",
      "",
      "The IP is well-structured and synthesis-friendly, with the main issue being the large memory array in the memory interface. The core FFT logic is solid and ready for production use."]

/-- Embedding of `generate_comprehensive_gate_report` as the ordered list of
report lines later joined by `"\n".join(report)`. -/
def comprehensiveReportLines (fs : String → Option (List Char)) (synthesisDir ts : String) :
    List String :=
  comprehensiveHeader ts ++ comprehensiveBody fs synthesisDir

/-- The two sides `print_status` can take in `_evaluate_synthesis_results`:
the SUCCESS message (the pass verdict) or the WARNING message (the
not-yet-improved verdict). -/
inductive SynthVerdict where
  | success
  | warning
  deriving Repr, DecidableEq

/-- The `expected_results` thresholds held by the `TestRunner` instance
(`test_runner.py` lines 55-68). -/
structure ExpectedResults where
  memory_interface_cells : Nat
  twiddle_rom_cells : Nat
  total_cells : Nat
  deriving Repr, DecidableEq

/-- The values `__init__` installs: memory_interface 1000, twiddle_rom 2000,
total 15000. -/
def initExpectedResults : ExpectedResults :=
  { memory_interface_cells := 1000, twiddle_rom_cells := 2000, total_cells := 15000 }

/-- Embedding of `_evaluate_synthesis_results` (lines 310-337): strict `<`
policy for `memory_interface` and `comprehensive` (judged against the
`total` entry), strict `>` policy for `twiddle_rom`, equality always on the
WARNING side; any other module name is not evaluated. -/
def evaluateSynthesisResults (expected : ExpectedResults) (module : String) (cellCount : Nat) :
    Option SynthVerdict :=
  if module = "memory_interface" then
    some (if cellCount < expected.memory_interface_cells then .success else .warning)
  else if module = "twiddle_rom" then
    some (if cellCount > expected.twiddle_rom_cells then .success else .warning)
  else if module = "comprehensive" then
    some (if cellCount < expected.total_cells then .success else .warning)
  else none

/-- Python `content.split('\n')`: a newline ends the current segment, any
other character extends it, and the empty text yields the single empty
segment (the recursion never returns an empty list, so the last match arm is
unreachable). -/
def splitNl : List Char → List (List Char)
  | [] => [[]]
  | c :: t =>
    if c = '\n' then [] :: splitNl t
    else
      match splitNl t with
      | h :: r => (c :: h) :: r
      | [] => [[c]]

/-- Python `str.strip()` over ASCII whitespace. -/
def pyStrip (s : List Char) : List Char :=
  ((s.dropWhile isSpaceChar).reverse.dropWhile isSpaceChar).reverse

/-- Python `line.split(":")[1]`: the text between the first colon and the
next colon (or the end of the line).  Every line this program applies it to
contains a colon, so index 1 exists. -/
def secondColonField (l : List Char) : List Char :=
  ((l.dropWhile (fun c => c != ':')).drop 1).takeWhile (fun c => c != ':')

/-- The line-scanning extraction of `analyze_memory_usage_results`: take the
first line containing the label and return `line.split(":")[1].strip()`
(note the result is kept as text, never converted to an integer). -/
def firstLineField (label content : List Char) : Option (List Char) :=
  ((splitNl content).find? (fun l => hasSub label l)).map (fun l => pyStrip (secondColonField l))

/-- The label the memory-analysis script greps for in the gate report. -/
def lblTotalGateCount : List Char := "Total Gate Count:".toList

/-- The dict `results["memory_interface"]` of `analyze_memory_usage_results`: at most
the keys `cell_count` and `memory_bits`. -/
structure MemInterfaceResult where
  cell_count : Option (List Char)
  memory_bits : Option (List Char)
  deriving Repr, DecidableEq

/-- The dicts built by `analyze_memory_usage_results` (the constant
`test_status` entry is omitted; `twiddle_rom` and `overall_improvement` each
hold at most one key, modelled by an `Option`). -/
structure MemAnalysisResults where
  memory_interface : MemInterfaceResult
  twiddle_rom_cell_count : Option (List Char)
  overall_total_gates : Option (List Char)
  deriving Repr, DecidableEq

def memoryInterfaceStatsPath (projectRoot : String) : String :=
  projectRoot ++ "/flow/synthesis/reports/memory_interface_stats.txt"

def twiddleRomStatsPath (projectRoot : String) : String :=
  projectRoot ++ "/flow/synthesis/reports/twiddle_rom_stats.txt"

def gateReportPath (projectRoot : String) : String :=
  projectRoot ++ "/flow/yosys/gate_analysis_report.md"

/-- The memory-interface block of `analyze_memory_usage_results` (lines
32-56).  When the cells label is absent but the memory-bits label is
present, the source raises `NameError` (`lines` is unbound), the surrounding
`except` swallows it, and the dict stays empty, which the second branch
mirrors. -/
def analyzeMemoryInterfaceStats (content : List Char) : MemInterfaceResult :=
  if hasSub lblCells content then
    { cell_count := firstLineField lblCells content
      memory_bits :=
        if hasSub lblMemoryBits content then firstLineField lblMemoryBits content else none }
  else { cell_count := none, memory_bits := none }

/-- Embedding of `analyze_memory_usage_results` (lines 17-96). -/
def analyzeMemoryUsageResults (fs : String → Option (List Char)) (projectRoot : String) :
    MemAnalysisResults :=
  { memory_interface :=
      match fs (memoryInterfaceStatsPath projectRoot) with
      | none => { cell_count := none, memory_bits := none }
      | some content => analyzeMemoryInterfaceStats content
    twiddle_rom_cell_count :=
      match fs (twiddleRomStatsPath projectRoot) with
      | none => none
      | some content => if hasSub lblCells content then firstLineField lblCells content else none
    overall_total_gates :=
      match fs (gateReportPath projectRoot) with
      | none => none
      | some content =>
        if hasSub lblTotalGateCount content then firstLineField lblTotalGateCount content
        else none }

/-- The memory-interface section body of `generate_memory_analysis_report`
(lines 124-131): the dict is truthy exactly when one of its two possible
keys is present. -/
def memoryInterfaceSection (mi : MemInterfaceResult) : List String :=
  if mi.cell_count.isSome || mi.memory_bits.isSome then
    ["**Current Results:**"]
    ++ (match mi.cell_count with
        | some cc => ["- **Cell Count:** " ++ String.mk cc]
        | none => [])
    ++ (match mi.memory_bits with
        | some mb => ["- **Memory Bits:** " ++ String.mk mb]
        | none => [])
  else ["**Status:** No synthesis data available"]

/-- The twiddle-ROM section body (lines 140-145). -/
def twiddleRomSection (tc : Option (List Char)) : List String :=
  match tc with
  | some cc => ["**Current Results:**", "- **Cell Count:** " ++ String.mk cc]
  | none => ["**Status:** No synthesis data available"]

/-- The overall-design section body (lines 154-158); each branch writes one
content line followed by a blank line (`"\n\n"`). -/
def overallSection (g : Option (List Char)) : List String :=
  match g with
  | some gc => ["**Total Gate Count:** " ++ String.mk gc, ""]
  | none => ["**Status:** Overall gate count not available", ""]

/-- The first six lines `generate_memory_analysis_report` writes (lines
115-118); `ts` stands for the `datetime.now()` stamp and `projectName` for
`Path(project_root).name`. -/
def memoryReportHeader (projectName ts : String) : List String :=
  ["# FFT IP Memory Usage Analysis Report",
   String.mk (List.replicate 40 '='),
   "",
   "**Generated:** " ++ ts,
   "**Project:** " ++ projectName,
   ""]

/-- Every line written after the header by `generate_memory_analysis_report`
(lines 120-208), in order; each `f.write` chunk contributes its
newline-separated lines. -/
def memoryReportBody (results : MemAnalysisResults) : List String :=
  ["## 🎯 Memory Usage Summary",
   "",
   "### Memory Interface Analysis",
   ""]
  ++ memoryInterfaceSection results.memory_interface
  ++ ["",
      "**Current Memory Requirements:**",
      "- **Memory Size:** 2048×32-bit (64KB)",
      "- **Address Bits:** 11-bit",
      "- **Expected Cell Count:** ~100-500 cells",
      "",
      "### Twiddle ROM Analysis",
      ""]
  ++ twiddleRomSection results.twiddle_rom_cell_count
  ++ ["",
      "**Current Memory Requirements:**",
      "- **ROM Size:** 1024×16-bit (16KB)",
      "- **Address Bits:** 10-bit",
      "- **Expected Cell Count:** ~50-200 cells",
      "",
      "### Overall Design Analysis",
      ""]
  ++ overallSection results.overall_total_gates
  ++ ["**Expected Overall Results:**",
      "- **Total Memory:** ~80KB (64KB + 16KB)",
      "- **Expected Total Cells:** ~150-700 cells",
      "- **Memory Efficiency:** Optimized for ASIC/FPGA implementation",
      "",
      "## 🔧 Current Implementation Details",
      "",
      "### 1. Memory Interface",
      "- **Memory Size:** Reduced from 65536×32-bit to 2048×32-bit",
      "- **Synthesis Attributes:** Added ram_style = block",
      "- **Address Optimization:** Changed from 16-bit to 11-bit addressing",
      "- **Timing Improvements:** Added registered outputs and pipelined ready signal",
      "",
      "### 2. Twiddle ROM",
      "- **ROM Size:** Reduced from 16K bits to 4K bits using symmetry",
      "- **Synthesis Attributes:** Added rom_style = block",
      "- **Symmetry Implementation:** Using trigonometric identities",
      "- **Data Width:** Changed from 32-bit to 16-bit storage",
      "",
      "## 🧪 Test Results",
      "",
      "**Memory Interface Tests:** ✅ PASSED",
      "**Twiddle ROM Tests:** ✅ PASSED",
      "**Synthesis Verification:** ✅ PASSED",
      "**All Core Modules:** ✅ Synthesize successfully",
      "",
      "## 🎯 Recommendations",
      "",
      "### For Production Use:",
      "1. **Memory Interface:** Use external memory controller for large arrays",
      "2. **Synthesis Flow:** Implement incremental synthesis for faster iterations",
      "3. **Timing Analysis:** Add synthesis constraints for optimization",
      "4. **Power Analysis:** Perform power analysis with realistic workloads",
      "",
      "### Next Steps:",
      "1. **Verify on Ubuntu:** Run complete test suite to confirm improvements",
      "2. **Synthesis Regression:** Create automated synthesis checking",
      "3. **Performance Validation:** Test with real FFT workloads",
      "4. **Documentation Update:** Update design specs with new metrics",
      "",
      "## 🏆 Conclusion",
      "",
      "The FFT IP demonstrates efficient memory usage:",
      "- **Core Logic:** All modules synthesize successfully",
      "- **Memory Efficiency:** Optimized memory sizing for FFT operations",
      "- **Production Ready:** Ready for ASIC/FPGA implementation",
      "- **Performance:** Maintained functionality with efficient area usage",
      "",
      "The IP is ready for production use with the current memory implementation."]

/-- Embedding of the document `generate_memory_analysis_report` writes, as
its ordered list of lines (the file ends with a final newline). -/
def memoryReportLines (results : MemAnalysisResults) (projectName ts : String) : List String :=
  memoryReportHeader projectName ts ++ memoryReportBody results

/-- Python `"\n".join(report)` over the line lists above, producing the text
blob written to the report file. -/
def joinNl : List (List Char) → List Char
  | [] => []
  | [l] => l
  | l :: ls => l ++ '\n' :: joinNl ls

/-- The primitive-gate-tag vocabulary as the specification lists it (the
marker names without the leading backslash of the source's regex literals). -/
def claimPrimitiveTags : List String :=
  ["$_AND_", "$_OR_", "$_XOR_", "$_XNOR_", "$_ANDNOT_", "$_NAND_", "$_NOR_", "$_NOT_",
   "$_MUX_", "$_DFF_", "$_DFFE_", "$_DLATCH_", "$_ALDFFE_", "$_MUL_", "$_ADD_", "$_SUB_",
   "$_ROM_", "$_RAM_"]

/-- A file system carrying one stats artifact: the `fft_engine` stats file of
synthesis directory `synth`, reporting 3000 cells. -/
def fsStatsDemo : String → Option (List Char) := fun p =>
  if p = statsFilePath "synth" "fft_engine" then some "Number of cells: 3000".toList else none

/-- The comprehensive gate report rendered from `fsStatsDemo` at a fixed
timestamp. -/
def reportLinesDemo : List String :=
  comprehensiveReportLines fsStatsDemo "synth" "2025-08-11 00:00:00"

/-- The rendered report as the text blob `"\n".join(report)` that
`main` writes to `gate_analysis_report.md`. -/
def reportTextDemo : List Char :=
  joinNl (reportLinesDemo.map String.toList)

/-- A file system in which project root `proj` holds exactly the rendered
gate report at `flow/yosys/gate_analysis_report.md`. -/
def fsReportDemo : String → Option (List Char) := fun p =>
  if p = gateReportPath "proj" then some reportTextDemo else none

/-- An empty memory-analysis result record (no artifact parsed). -/
def memDemoResults : MemAnalysisResults :=
  { memory_interface := { cell_count := none, memory_bits := none }
    twiddle_rom_cell_count := none
    overall_total_gates := none }

/-! ## Lemmas about the leftmost-match search -/

theorem matchLabelNum_nil (label : List Char) : matchLabelNum label [] = none := by
  cases label with
  | nil => simp [matchLabelNum, dropSpacesIfAny, List.isPrefixOf]
  | cons c t => simp [matchLabelNum, List.isPrefixOf]

/-- Existence direction of the `re.search` semantics: if the pattern matches at
position `i` and at no earlier position, the search returns that match. -/
theorem searchLabelNum_first (label : List Char) :
    ∀ (s : List Char) (i n : Nat), matchLabelNum label (s.drop i) = some n →
      (∀ j, j < i → matchLabelNum label (s.drop j) = none) →
      searchLabelNum label s = some n := by
  intro s
  induction s with
  | nil =>
    intro i n h _
    rw [List.drop_nil, matchLabelNum_nil] at h
    cases h
  | cons c t ih =>
    intro i n h hmin
    cases i with
    | zero =>
      rw [List.drop_zero] at h
      simp only [searchLabelNum]
      rw [h]
    | succ j =>
      have h0 : matchLabelNum label (c :: t) = none := by
        have hj := hmin 0 (Nat.succ_pos j)
        rwa [List.drop_zero] at hj
      simp only [searchLabelNum]
      rw [h0]
      refine ih j n ?_ ?_
      · rwa [List.drop_succ_cons] at h
      · intro j2 hj2
        have := hmin (j2 + 1) (Nat.succ_lt_succ hj2)
        rwa [List.drop_succ_cons] at this

/-- Absence direction of the `re.search` semantics: if the pattern matches at no
position, the search fails. -/
theorem searchLabelNum_absent (label : List Char) :
    ∀ (s : List Char), (∀ i, matchLabelNum label (s.drop i) = none) →
      searchLabelNum label s = none := by
  intro s
  induction s with
  | nil => intro _; rfl
  | cons c t ih =>
    intro h
    have h0 := h 0
    rw [List.drop_zero] at h0
    simp only [searchLabelNum]
    rw [h0]
    refine ih ?_
    intro i
    have := h (i + 1)
    rwa [List.drop_succ_cons] at this

/-! ## C2: the metric field extractor -/

/-- C2: for every summary text, the extractor returns `cells = N` where `N`
is captured by the first (leftmost) match of `Number of cells:` followed by
whitespace and an integer; and for each of the ten metric labels of the fixed
vocabulary, when the label-plus-integer pattern matches at no position of the
text, the corresponding field is absent (`none`) rather than defaulted to
zero. -/
theorem c2_metric_extractor (content : List Char) :
    (∀ i n, matchLabelNum lblCells (content.drop i) = some n →
      (∀ j, j < i → matchLabelNum lblCells (content.drop j) = none) →
      (parseSynthesisStats content).cells = some n) ∧
    ((∀ i, matchLabelNum lblCells (content.drop i) = none) →
      (parseSynthesisStats content).cells = none) ∧
    ((∀ i, matchLabelNum lblWires (content.drop i) = none) →
      (parseSynthesisStats content).wires = none) ∧
    ((∀ i, matchLabelNum lblWireBits (content.drop i) = none) →
      (parseSynthesisStats content).wire_bits = none) ∧
    ((∀ i, matchLabelNum lblPublicWires (content.drop i) = none) →
      (parseSynthesisStats content).public_wires = none) ∧
    ((∀ i, matchLabelNum lblPublicWireBits (content.drop i) = none) →
      (parseSynthesisStats content).public_wire_bits = none) ∧
    ((∀ i, matchLabelNum lblPorts (content.drop i) = none) →
      (parseSynthesisStats content).ports = none) ∧
    ((∀ i, matchLabelNum lblPortBits (content.drop i) = none) →
      (parseSynthesisStats content).port_bits = none) ∧
    ((∀ i, matchLabelNum lblMemories (content.drop i) = none) →
      (parseSynthesisStats content).memories = none) ∧
    ((∀ i, matchLabelNum lblMemoryBits (content.drop i) = none) →
      (parseSynthesisStats content).memory_bits = none) ∧
    ((∀ i, matchLabelNum lblProcesses (content.drop i) = none) →
      (parseSynthesisStats content).processes = none) := by
  refine ⟨?_, ?_, ?_, ?_, ?_, ?_, ?_, ?_, ?_, ?_, ?_⟩
  · intro i n h hmin
    exact searchLabelNum_first lblCells content i n h hmin
  all_goals intro h
  all_goals exact searchLabelNum_absent _ content h

/-- C2 witness: on a concrete summary in which the cells label occurs twice,
the theorem applied at the first match position yields the first value. -/
theorem c2_metric_extractor_app :
    (parseSynthesisStats "Number of cells: 1234\nNumber of cells: 9".toList).cells = some 1234 :=
  (c2_metric_extractor "Number of cells: 1234\nNumber of cells: 9".toList).1 0 1234
    (by decide) (fun j hj => absurd hj (Nat.not_lt_zero j))

/-! ## C3: the regression evaluator -/

/-- C3: `_evaluate_synthesis_results` reports the success side iff the strict
inequality of the metric's policy holds — `measured < expected` for
`memory_interface` and for the comprehensive total, `measured > expected` for
`twiddle_rom` — equality always lands on the warning side, and with the
configured thresholds a measured cell count of 900 against the
memory-interface threshold 1000 is a pass. -/
theorem c3_regression_evaluator (expected : ExpectedResults) (measured : Nat) :
    (evaluateSynthesisResults expected "memory_interface" measured = some .success ↔
      measured < expected.memory_interface_cells) ∧
    (evaluateSynthesisResults expected "twiddle_rom" measured = some .success ↔
      measured > expected.twiddle_rom_cells) ∧
    (evaluateSynthesisResults expected "comprehensive" measured = some .success ↔
      measured < expected.total_cells) ∧
    (evaluateSynthesisResults expected "memory_interface" expected.memory_interface_cells =
      some .warning) ∧
    (evaluateSynthesisResults expected "twiddle_rom" expected.twiddle_rom_cells = some .warning) ∧
    (evaluateSynthesisResults expected "comprehensive" expected.total_cells = some .warning) ∧
    evaluateSynthesisResults initExpectedResults "memory_interface" 900 = some .success := by
  refine ⟨?_, ?_, ?_, ?_, ?_, ?_, by decide⟩ <;>
    simp only [evaluateSynthesisResults, reduceIte] <;>
    split <;>
    simp_all

/-! ## C5: the derived physical-design estimates -/

/-- C5: for every total cell count, the ASIC estimate satisfies
`logic_area = total_cells / 1,200,000` and `total_area = logic_area + 0.5`
within tolerance `1e-9` (the float arithmetic of the source is modelled
exactly over `ℚ`, where both equalities are exact, hence within any
tolerance), and the FPGA estimate is `lut_usage = total_cells * 0.3`,
`ff_usage = total_cells * 0.2`, with the fixed 64 BRAM and 50 DSP blocks. -/
theorem c5_die_size_estimates (totalCells : Nat) :
    |(calculateDieSizeEstimates totalCells).asic_45nm.logic_area - (totalCells : ℚ) / 1200000| ≤
      1 / 1000000000 ∧
    |(calculateDieSizeEstimates totalCells).asic_45nm.total_area -
      ((calculateDieSizeEstimates totalCells).asic_45nm.logic_area + 0.5)| ≤ 1 / 1000000000 ∧
    (calculateDieSizeEstimates totalCells).fpga.lut_usage = (totalCells : ℚ) * 0.3 ∧
    (calculateDieSizeEstimates totalCells).fpga.ff_usage = (totalCells : ℚ) * 0.2 ∧
    (calculateDieSizeEstimates totalCells).fpga.bram_blocks = 64 ∧
    (calculateDieSizeEstimates totalCells).fpga.dsp_blocks = 50 := by
  simp only [calculateDieSizeEstimates]
  norm_num

/-! ## C1: the transistor estimate -/

/-- A key absent from an association list yields the lookup default. -/
theorem dictGet_not_mem (l : List (String × Nat)) (k : String) (d : Nat)
    (h : k ∉ l.map Prod.fst) : dictGet l k d = d := by
  induction l with
  | nil => rfl
  | cons p t ih =>
    simp only [List.map_cons, List.mem_cons] at h
    push_neg at h
    simp only [dictGet]
    rw [if_neg (fun hpk => h.1 hpk.symm)]
    exact ih h.2

/-- Splitting one breakdown entry out of the table-indexed sum: when `k` is a
table key and does not recur in the rest of the breakdown, its contribution
is `c` times its table cost. -/
theorem sum_dictGet_cons :
    ∀ (T : List (String × Nat)), (T.map Prod.fst).Nodup →
      ∀ (k : String), k ∈ T.map Prod.fst → ∀ (c : Nat) (b2 : List (String × Nat)),
        k ∉ b2.map Prod.fst →
        (T.map (fun q => dictGet ((k, c) :: b2) q.1 0 * q.2)).sum =
          c * dictGet T k 6 + (T.map (fun q => dictGet b2 q.1 0 * q.2)).sum := by
  intro T
  induction T with
  | nil =>
    intro _ k hk
    simp at hk
  | cons t T2 ih =>
    intro hT k hk c b2 hb2
    simp only [List.map_cons, List.nodup_cons] at hT
    simp only [List.map_cons, List.sum_cons]
    by_cases htk : t.1 = k
    · have hknotT2 : k ∉ T2.map Prod.fst := htk ▸ hT.1
      have hhead : dictGet ((k, c) :: b2) t.1 0 = c := by
        simp only [dictGet]
        rw [if_pos htk.symm]
      have hT2maps : T2.map (fun q => dictGet ((k, c) :: b2) q.1 0 * q.2) =
          T2.map (fun q => dictGet b2 q.1 0 * q.2) := by
        apply List.map_congr_left
        intro q hq
        have hq1 : q.1 ≠ k := by
          intro he
          exact hknotT2 (he ▸ List.mem_map_of_mem Prod.fst hq)
        simp only [dictGet]
        rw [if_neg (fun he => hq1 he.symm)]
      have hgetT : dictGet (t :: T2) k 6 = t.2 := by
        simp only [dictGet]
        rw [if_pos htk]
      have hb2t : dictGet b2 t.1 0 = 0 := by
        rw [htk]
        exact dictGet_not_mem _ _ _ hb2
      rw [hhead, hT2maps, hgetT, hb2t]
      ring
    · have hkT2 : k ∈ T2.map Prod.fst := by
        simp only [List.map_cons, List.mem_cons] at hk
        rcases hk with hk1 | hk2
        · exact absurd hk1.symm htk
        · exact hk2
      have hhead : dictGet ((k, c) :: b2) t.1 0 = dictGet b2 t.1 0 := by
        simp only [dictGet]
        rw [if_neg (fun he => htk he.symm)]
      have hgetT : dictGet (t :: T2) k 6 = dictGet T2 k 6 := by
        simp only [dictGet]
        rw [if_neg htk]
      rw [hhead, hgetT, ih hT.2 k hkT2 c b2 hb2]
      ring

/-- The table-indexed sum over the empty breakdown vanishes. -/
theorem sum_dictGet_nil (T : List (String × Nat)) :
    (T.map (fun q => dictGet [] q.1 0 * q.2)).sum = 0 := by
  induction T with
  | nil => rfl
  | cons t T2 ih => simp [dictGet, ih]

/-- C1: for every `CellBreakdown` (an association list with distinct keys
drawn from the fixed gate-type vocabulary), the transistor estimate computed
by `analyze_gates` — a sum over the cost table of `gate_counts.get(g, 0)`
times the cost — equals the sum over the present gate types of the count
times the per-type cost with default weight 6 for a type missing from the
table (the `count * table.get(gate_type, 6)` computation of
`generate_gate_report`), as exact integer equality. -/
theorem c1_transistor_estimate (b : List (String × Nat))
    (hnodup : (b.map Prod.fst).Nodup)
    (hvocab : ∀ p ∈ b, p.1 ∈ transistorCounts.map Prod.fst) :
    totalTransistorsOf b = (b.map (fun p => perGateTransistors p.1 p.2)).sum := by
  induction b with
  | nil =>
    simp only [totalTransistorsOf, List.map_nil, List.sum_nil]
    exact sum_dictGet_nil transistorCounts
  | cons p b2 ih =>
    obtain ⟨k, c⟩ := p
    have hk : k ∈ transistorCounts.map Prod.fst := hvocab (k, c) (List.mem_cons_self _ _)
    simp only [List.map_cons, List.nodup_cons] at hnodup
    have hrec := ih hnodup.2 (fun q hq => hvocab q (List.mem_cons_of_mem _ hq))
    simp only [totalTransistorsOf] at hrec ⊢
    rw [sum_dictGet_cons transistorCounts (by decide) k hk c b2 hnodup.1, hrec]
    simp only [List.map_cons, List.sum_cons, perGateTransistors]
    rfl

/-- C1 witness: the spec's own scenario, breakdown
`NOT = 10, MUX = 5, DFF = 2` giving `10*2 + 5*12 + 2*20 = 120`. -/
theorem c1_transistor_estimate_app :
    totalTransistorsOf [("NOT", 10), ("MUX", 5), ("DFF", 2)] =
      ([("NOT", 10), ("MUX", 5), ("DFF", 2)].map (fun p => perGateTransistors p.1 p.2)).sum ∧
    totalTransistorsOf [("NOT", 10), ("MUX", 5), ("DFF", 2)] = 120 :=
  ⟨c1_transistor_estimate [("NOT", 10), ("MUX", 5), ("DFF", 2)] (by decide) (by decide),
   by decide⟩

/-! ## C7: the breakdown count invariant -/

/-- C7 counterexample: the claim that every producer guarantees counts of at
least 1 fails on the extractor: a stats text listing a zero instance count
(`\$_AND_ 0`) is stored as a present key with count 0, not omitted. -/
theorem c7_zero_count_cex :
    (parseSynthesisStats "\\$_AND_ 0".toList).cell_breakdown = [("AND", 0)] ∧
    ¬(∀ p ∈ (parseSynthesisStats "\\$_AND_ 0".toList).cell_breakdown, 1 ≤ p.2) := by
  refine ⟨by decide, by decide⟩

/-- C7 amended: every `CellBreakdown` produced by the netlist scanner's
presence-counting pass maps each present key to a count of at least 1 (a
marker with no occurrence is absent); the extractor's second pass stores for
each present key exactly the integer captured by the first match of the
corresponding gate marker in the text, so its counts are at least 1 whenever
every integer the text pairs with a gate marker is positive — but a textual
zero count is stored as 0. -/
theorem c7_breakdown_invariant (fileName : String) (content : List Char) :
    (∀ p ∈ (analyzeGates fileName content).gate_counts, 1 ≤ p.2) ∧
    (∀ p ∈ (parseSynthesisStats content).cell_breakdown,
      ∃ m, (p.1, m) ∈ gateMarkers ∧ searchLabelNum m content = some p.2) ∧
    ((∀ g m, (g, m) ∈ gateMarkers → ∀ n, searchLabelNum m content = some n → 1 ≤ n) →
      ∀ p ∈ (parseSynthesisStats content).cell_breakdown, 1 ≤ p.2) := by
  have hbreak : ∀ p ∈ (parseSynthesisStats content).cell_breakdown,
      ∃ m, (p.1, m) ∈ gateMarkers ∧ searchLabelNum m content = some p.2 := by
    intro p hp
    have hp2 : p ∈ gateMarkers.filterMap
        (fun q => (searchLabelNum q.2 content).map (fun n => (q.1, n))) := hp
    rw [List.mem_filterMap] at hp2
    obtain ⟨q, hq, hqe⟩ := hp2
    rw [Option.map_eq_some'] at hqe
    obtain ⟨n, hn, he⟩ := hqe
    cases he
    exact ⟨q.2, hq, hn⟩
  refine ⟨?_, hbreak, ?_⟩
  · intro p hp
    have hp2 : p ∈ gateMarkers.filterMap (fun q =>
        let n := countMarker q.2 content
        if n = 0 then none else some (q.1, n)) := hp
    rw [List.mem_filterMap] at hp2
    obtain ⟨q, hq, hqe⟩ := hp2
    have hqe2 : (if countMarker q.2 content = 0 then none
        else some (q.1, countMarker q.2 content)) = some p := hqe
    by_cases h0 : countMarker q.2 content = 0
    · rw [if_pos h0] at hqe2
      cases hqe2
    · rw [if_neg h0] at hqe2
      cases hqe2
      omega
  · intro hpos p hp
    obtain ⟨m, hm, hsearch⟩ := hbreak p hp
    exact hpos p.1 m hm p.2 hsearch

/-- C7 witness: on the stats text `\$_NOT_ 4`, whose only marker count is
positive, the amended theorem yields the count invariant for the produced
breakdown (here `[(NOT, 4)]`). -/
theorem c7_breakdown_invariant_app :
    ∀ p ∈ (parseSynthesisStats "\\$_NOT_ 4".toList).cell_breakdown, 1 ≤ p.2 := by
  apply (c7_breakdown_invariant "netlist.v" "\\$_NOT_ 4".toList).2.2
  intro g m hm n hn
  have hor : searchLabelNum m "\\$_NOT_ 4".toList = none ∨
      searchLabelNum m "\\$_NOT_ 4".toList = some 4 := by
    fin_cases hm <;> decide
  rcases hor with h | h
  · rw [h] at hn
    cases hn
  · rw [h] at hn
    injection hn with he
    omega

/-! ## C8: the module-instance table -/

theorem findInsts_nil : findInsts [] = [] := by
  rw [findInsts]

/-- Unfolding equation for the instantiation scan with a plain (non-dependent)
match. -/
theorem findInsts_cons (c : Char) (t : List Char) :
    findInsts (c :: t) =
      match matchInst (c :: t) with
      | some (w1, w2, rest) => (w1, w2) :: findInsts rest
      | none => findInsts t := by
  rw [findInsts]
  cases hm : matchInst (c :: t) with
  | none => simp [hm]
  | some g =>
    obtain ⟨w1, w2, rest⟩ := g
    simp [hm]

/-- The scan of the netlist text `\$_AND_ g1 (` finds exactly one
instantiation-shaped match: `module_name = _AND_`, `instance_name = g1` (the
`\$` prefix is not matched by `\w+`). -/
theorem findInsts_demo :
    findInsts "\\$_AND_ g1 (".toList = [("_AND_".toList, "g1".toList)] := by
  rw [show "\\$_AND_ g1 (".toList = '\\' :: "$_AND_ g1 (".toList from rfl]
  rw [findInsts_cons, show matchInst ('\\' :: "$_AND_ g1 (".toList) = none from by decide]
  rw [show "$_AND_ g1 (".toList = '$' :: "_AND_ g1 (".toList from rfl]
  rw [findInsts_cons, show matchInst ('$' :: "_AND_ g1 (".toList) = none from by decide]
  rw [show "_AND_ g1 (".toList = '_' :: "AND_ g1 (".toList from rfl]
  rw [findInsts_cons,
    show matchInst ('_' :: "AND_ g1 (".toList) = some ("_AND_".toList, "g1".toList, [])
      from by decide]
  show ("_AND_".toList, "g1".toList) :: findInsts [] = [("_AND_".toList, "g1".toList)]
  rw [findInsts_nil]

/-- The module-instance table the scanner builds from `\$_AND_ g1 (`. -/
theorem moduleInstancesDemoVal :
    (analyzeGates "netlist.v" "\\$_AND_ g1 (".toList).module_instances = [("_AND_", 1)] := by
  have hmi : (analyzeGates "netlist.v" "\\$_AND_ g1 (".toList).module_instances =
      moduleInstancesOf "\\$_AND_ g1 (".toList := rfl
  rw [hmi]
  unfold moduleInstancesOf
  rw [findInsts_demo]
  decide

/-- C8 counterexample: a netlist consisting of a single primitive-gate
instantiation `\$_AND_ g1 (` yields a non-empty `ModuleInstanceTable` — the
occurrence is recorded under the residual word-character name `_AND_` — so
primitive-gate instantiations are not excluded from the table as the claim
states. -/
theorem c8_primitive_instance_cex :
    (analyzeGates "netlist.v" "\\$_AND_ g1 (".toList).module_instances = [("_AND_", 1)] ∧
    (analyzeGates "netlist.v" "\\$_AND_ g1 (".toList).module_instances ≠ [] := by
  rw [moduleInstancesDemoVal]
  exact ⟨rfl, by decide⟩

/-- The first captured group of every instantiation match consists of word
characters only (`\w+` can capture neither `\` nor `$`). -/
theorem matchInst_group_words (s w1 w2 rest : List Char)
    (h : matchInst s = some (w1, w2, rest)) : w1.all isWordChar = true := by
  simp only [matchInst, Option.bind_eq_some] at h
  obtain ⟨⟨wa, ra⟩, hpw1, r2, hr2, ⟨wb, rb⟩, hpw2, hfin⟩ := h
  split at hfin
  · cases hfin
    cases s with
    | nil => simp [readWord] at hpw1
    | cons c t =>
      simp only [readWord] at hpw1
      by_cases hc : isWordChar c
      · rw [if_pos hc] at hpw1
        cases hpw1
        exact List.all_takeWhile
      · rw [if_neg hc] at hpw1
        cases hpw1
  · cases hfin

/-- Every scanned instantiation's module name consists of word characters. -/
theorem findInsts_words (s : List Char) : ∀ g ∈ findInsts s, g.1.all isWordChar = true := by
  induction s using findInsts.induct with
  | case1 =>
    intro g hg
    rw [findInsts_nil] at hg
    cases hg
  | case2 c t w1 w2 rest h ih =>
    intro g hg
    rw [findInsts_cons, h] at hg
    rcases List.mem_cons.mp hg with h1 | h2
    · subst h1
      exact matchInst_group_words _ _ _ _ h
    · exact ih g h2
  | case3 c t h ih =>
    intro g hg
    rw [findInsts_cons, h] at hg
    exact ih g hg

/-- Bumping a key that satisfies the invariant preserves the table
invariant (counts stay at least 1). -/
theorem bumpKey_inv (Q : String → Prop) (k : String) (hk : Q k) :
    ∀ (acc : List (String × Nat)), (∀ q ∈ acc, 1 ≤ q.2 ∧ Q q.1) →
      ∀ q ∈ bumpKey k acc, 1 ≤ q.2 ∧ Q q.1 := by
  intro acc
  induction acc with
  | nil =>
    intro _ q hq
    simp only [bumpKey, List.mem_singleton] at hq
    subst hq
    exact ⟨Nat.le_refl 1, hk⟩
  | cons a t ih =>
    intro hacc q hq
    simp only [bumpKey] at hq
    by_cases hpk : a.1 = k
    · rw [if_pos hpk] at hq
      rcases List.mem_cons.mp hq with h1 | h2
      · rw [h1]
        exact ⟨Nat.succ_le_succ (Nat.zero_le _), (hacc a (List.mem_cons_self _ _)).2⟩
      · exact hacc q (List.mem_cons_of_mem _ h2)
    · rw [if_neg hpk] at hq
      rcases List.mem_cons.mp hq with h1 | h2
      · rw [h1]
        exact hacc a (List.mem_cons_self _ _)
      · exact ih (fun r hr => hacc r (List.mem_cons_of_mem _ hr)) q h2

/-- Invariant of the accumulation loop of `analyze_gates`: every entry of the
resulting table has count at least 1 and a key that passed the exclusion
filter and consists of word characters. -/
theorem moduleInstances_foldl_inv (Q : String → Prop)
    (hQ : ∀ (w : List Char), w.all isWordChar = true →
      instanceExclusions.contains (String.mk w) = false →
      strStartsWith "\\$_" (String.mk w) = false → Q (String.mk w)) :
    ∀ (L : List (List Char × List Char)), (∀ g ∈ L, g.1.all isWordChar = true) →
      ∀ (acc : List (String × Nat)), (∀ q ∈ acc, 1 ≤ q.2 ∧ Q q.1) →
      ∀ q ∈ L.foldl
          (fun acc g =>
            let moduleName := String.mk g.1
            if !(instanceExclusions.contains moduleName) &&
                !(strStartsWith "\\$_" moduleName) then
              bumpKey moduleName acc
            else acc)
          acc,
        1 ≤ q.2 ∧ Q q.1 := by
  intro L
  induction L with
  | nil =>
    intro _ acc hacc q hq
    exact hacc q hq
  | cons g L2 ih =>
    intro hL acc hacc q hq
    simp only [List.foldl_cons] at hq
    refine ih (fun r hr => hL r (List.mem_cons_of_mem _ hr)) _ ?_ q hq
    intro r hr
    have hr2 : r ∈ (if !(instanceExclusions.contains (String.mk g.1)) &&
        !(strStartsWith "\\$_" (String.mk g.1)) then
          bumpKey (String.mk g.1) acc
        else acc) := hr
    by_cases hcond : (!(instanceExclusions.contains (String.mk g.1)) &&
        !(strStartsWith "\\$_" (String.mk g.1))) = true
    · rw [if_pos hcond] at hr2
      simp only [Bool.and_eq_true, Bool.not_eq_eq_eq_not, Bool.not_true] at hcond
      exact bumpKey_inv Q (String.mk g.1)
        (hQ g.1 (hL g (List.mem_cons_self _ _)) hcond.1 hcond.2) acc hacc r hr2
    · rw [if_neg hcond] at hr2
      exact hacc r hr2

/-- A key the exclusion filter let through is none of the four reserved
words (they are all in the exclusion list). -/
theorem containsFalse_not_reserved (s : String)
    (h : instanceExclusions.contains s = false) :
    s ∉ (["module", "input", "output", "wire"] : List String) := by
  intro hmem
  fin_cases hmem <;> exact absurd h (by decide)

/-- A name made only of word characters is never one of the `$`-prefixed
primitive gate tags. -/
theorem allWord_not_claimTag (w : List Char) (hw : w.all isWordChar = true) :
    String.mk w ∉ claimPrimitiveTags := by
  intro hmem
  have hmem2 : w ∈ claimPrimitiveTags.map String.toList :=
    (show String.toList (String.mk w) = w from rfl) ▸ List.mem_map_of_mem String.toList hmem
  fin_cases hmem2 <;> exact absurd hw (by decide)

/-- C8 amended: every entry of the `ModuleInstanceTable` has count at least 1
and a key that is neither a reserved word (`module`, `input`, `output`,
`wire`) nor any string of the primitive-gate-tag vocabulary (nor any literal
of the code's exclusion list); however, a primitive-gate instantiation is not
excluded as an occurrence — it contributes an entry under the residual
word-character name left after the unmatchable `\$_` prefix (for example
`_AND_`), because only the literal tag strings are filtered and a `\w+`
capture can never equal them. -/
theorem c8_module_table_invariant (fileName : String) (content : List Char) :
    ∀ p ∈ (analyzeGates fileName content).module_instances,
      1 ≤ p.2 ∧ p.1 ∉ (["module", "input", "output", "wire"] : List String) ∧
        p.1 ∉ claimPrimitiveTags ∧ instanceExclusions.contains p.1 = false := by
  intro p hp
  have hp2 : p ∈ moduleInstancesOf content := hp
  unfold moduleInstancesOf at hp2
  have hinv := moduleInstances_foldl_inv
    (fun s => s ∉ (["module", "input", "output", "wire"] : List String) ∧
      s ∉ claimPrimitiveTags ∧ instanceExclusions.contains s = false)
    (fun w hw hcontains _ =>
      ⟨containsFalse_not_reserved _ hcontains, allWord_not_claimTag w hw, hcontains⟩)
    (findInsts content) (findInsts_words content) [] (by intro q hq; cases hq) p hp2
  exact ⟨hinv.1, hinv.2⟩

/-- C8 witness: the amended invariant evaluated at the entry the scanner
produces from `\$_AND_ g1 (`. -/
theorem c8_module_table_invariant_app :
    1 ≤ (("_AND_", 1) : String × Nat).2 ∧
      (("_AND_", 1) : String × Nat).1 ∉ (["module", "input", "output", "wire"] : List String) ∧
      (("_AND_", 1) : String × Nat).1 ∉ claimPrimitiveTags ∧
      instanceExclusions.contains (("_AND_", 1) : String × Nat).1 = false :=
  c8_module_table_invariant "netlist.v" "\\$_AND_ g1 (".toList ("_AND_", 1)
    (by rw [moduleInstancesDemoVal]; exact List.mem_singleton.mpr rfl)

/-! ## C4: missing artifacts versus empty artifacts -/

/-- C4: a non-existent file makes both the summary-stats extractor and the
netlist scanner return the explicit no-data result `none` (no exception
path exists in the embedding); an existing file always produces a record —
for the extractor the full `SynthStats` record of the parse, which carries a
(possibly empty) cell-breakdown mapping even when nothing matched — and the
memory-analysis renderer emits the section heading together with the line
`**Status:** No synthesis data available` when the section's metrics are
absent, rather than omitting the section. -/
theorem c4_missing_artifact (fs : String → Option (List Char)) (path : String) :
    (fs path = none → parseSynthesisStatsFile fs path = none ∧ analyzeGatesFile fs path = none) ∧
    (∀ c, fs path = some c →
      parseSynthesisStatsFile fs path = some (parseSynthesisStats c) ∧
      analyzeGatesFile fs path = some (analyzeGates path c)) ∧
    (∀ (results : MemAnalysisResults) (projectName ts : String),
      results.memory_interface.cell_count = none →
      results.memory_interface.memory_bits = none →
      "### Memory Interface Analysis" ∈ memoryReportLines results projectName ts ∧
      "**Status:** No synthesis data available" ∈ memoryReportLines results projectName ts) := by
  refine ⟨?_, ?_, ?_⟩
  · intro h
    constructor <;> simp [parseSynthesisStatsFile, analyzeGatesFile, h]
  · intro c h
    constructor <;> simp [parseSynthesisStatsFile, analyzeGatesFile, h]
  · intro results pn ts h1 h2
    have hsec : memoryInterfaceSection results.memory_interface =
        ["**Status:** No synthesis data available"] := by
      simp [memoryInterfaceSection, h1, h2]
    constructor <;> simp [memoryReportLines, memoryReportBody, memoryReportHeader, hsec]

/-- C4 witness: the theorem applied to an empty file system and to an empty
result record. -/
theorem c4_missing_artifact_app :
    parseSynthesisStatsFile (fun _ => none) "missing.txt" = none ∧
    analyzeGatesFile (fun _ => none) "missing.txt" = none ∧
    "**Status:** No synthesis data available" ∈ memoryReportLines memDemoResults "proj" "ts" :=
  ⟨((c4_missing_artifact (fun _ => none) "missing.txt").1 rfl).1,
   ((c4_missing_artifact (fun _ => none) "missing.txt").1 rfl).2,
   ((c4_missing_artifact (fun _ => none) "missing.txt").2.2 memDemoResults "proj" "ts"
      rfl rfl).2⟩

/-! ## C10: the comprehensive report's total cell count -/

/-- C10: the total cell count fed to the die-size estimator is the sum, over
exactly the modules whose stats file exists, of the parsed record's `cells`
value with an absent `cells` key contributing 0 (`stats.get('cells', 0)`);
and a module's display name appears in the per-module summary map exactly
when its stats file exists. -/
theorem c10_total_cells_sum (fs : String → Option (List Char)) (synthesisDir : String) :
    totalCellsOf (collectModuleStats fs synthesisDir) =
      (modulesTable.map (fun p =>
        match fs (statsFilePath synthesisDir p.1) with
        | some c => ((parseSynthesisStats c).cells).getD 0
        | none => 0)).sum ∧
    ∀ p ∈ modulesTable,
      (p.2 ∈ (collectModuleStats fs synthesisDir).map Prod.fst ↔
        (fs (statsFilePath synthesisDir p.1)).isSome = true) := by
  constructor
  · have haux : ∀ (L : List (String × String)),
        totalCellsOf (L.filterMap (fun p => (fs (statsFilePath synthesisDir p.1)).map
          (fun content => (p.2, parseSynthesisStats content)))) =
        (L.map (fun p =>
          match fs (statsFilePath synthesisDir p.1) with
          | some c => ((parseSynthesisStats c).cells).getD 0
          | none => 0)).sum := by
      intro L
      induction L with
      | nil => rfl
      | cons a L2 ih =>
        cases hfa : fs (statsFilePath synthesisDir a.1) with
        | none =>
          simp only [List.filterMap_cons, hfa, Option.map_none', List.map_cons, List.sum_cons]
          rw [ih]
          omega
        | some c =>
          simp only [List.filterMap_cons, hfa, Option.map_some', List.map_cons, List.sum_cons]
          simp only [totalCellsOf, List.map_cons, List.sum_cons]
          simp only [totalCellsOf] at ih
          rw [ih]
    exact haux modulesTable
  · intro p hp
    constructor
    · intro hmem
      rw [List.mem_map] at hmem
      obtain ⟨q, hqmem, hqeq⟩ := hmem
      rw [collectModuleStats, List.mem_filterMap] at hqmem
      obtain ⟨r, hrmem, hre⟩ := hqmem
      rw [Option.map_eq_some'] at hre
      obtain ⟨c, hc, hce⟩ := hre
      have hr2 : r.2 = p.2 := by
        rw [← hqeq, ← hce]
      have hrp : r = p := by
        have hnd : (modulesTable.map Prod.snd).Nodup := by decide
        exact List.inj_on_of_nodup_map hnd hrmem hp hr2
      rw [← hrp, hc]
      rfl
    · intro hsome
      rw [Option.isSome_iff_exists] at hsome
      obtain ⟨c, hc⟩ := hsome
      rw [List.mem_map]
      refine ⟨(p.2, parseSynthesisStats c), ?_, rfl⟩
      rw [collectModuleStats, List.mem_filterMap]
      exact ⟨p, hp, by rw [hc]; rfl⟩

/-- C10 witness: with only the `fft_engine` stats file present (3000 cells),
the estimator receives 3000 and only `FFT Engine` enters the summary map. -/
theorem c10_total_cells_sum_app :
    totalCellsOf (collectModuleStats fsStatsDemo "synth") = 3000 ∧
    ("FFT Engine" ∈ (collectModuleStats fsStatsDemo "synth").map Prod.fst ↔
      (fsStatsDemo (statsFilePath "synth" "fft_engine")).isSome = true) :=
  ⟨(c10_total_cells_sum fsStatsDemo "synth").1.trans (by decide),
   (c10_total_cells_sum fsStatsDemo "synth").2 ("fft_engine", "FFT Engine") (by decide)⟩

/-! ## C9: rendering determinism -/

/-- C9 counterexample: rendering the memory analysis report twice with
different timestamps yields different documents, yet no line of the document
begins with `Generated:` — the timestamp line begins with `**Generated:**` —
so the claim that the renderings are identical except for a single line
beginning `Generated:` is false for the memory analysis report. -/
theorem c9_timestamp_line_cex :
    memoryReportLines memDemoResults "fft" "A" ≠ memoryReportLines memDemoResults "fft" "B" ∧
    ∀ s ∈ memoryReportLines memDemoResults "fft" "A", strStartsWith "Generated:" s = false := by
  refine ⟨by decide, by decide⟩

/-- C9 amended: with identical input, two renderings of the comprehensive
gate report (and likewise of the memory analysis report) differ at most in
the single generation-timestamp line, which sits at line index 3 of both
documents and begins with `Generated:` in the gate report but with
`**Generated:**` in the memory analysis report; every other line is a
function of the input data alone. -/
theorem c9_render_determinism (fs : String → Option (List Char)) (synthesisDir ts ts2 : String)
    (results : MemAnalysisResults) (projectName : String) :
    (comprehensiveReportLines fs synthesisDir ts).length =
      (comprehensiveReportLines fs synthesisDir ts2).length ∧
    (∀ i, i ≠ 3 → (comprehensiveReportLines fs synthesisDir ts)[i]? =
      (comprehensiveReportLines fs synthesisDir ts2)[i]?) ∧
    (comprehensiveReportLines fs synthesisDir ts)[3]? = some ("Generated: " ++ ts) ∧
    (memoryReportLines results projectName ts).length =
      (memoryReportLines results projectName ts2).length ∧
    (∀ i, i ≠ 3 → (memoryReportLines results projectName ts)[i]? =
      (memoryReportLines results projectName ts2)[i]?) ∧
    (memoryReportLines results projectName ts)[3]? = some ("**Generated:** " ++ ts) := by
  refine ⟨?_, ?_, rfl, ?_, ?_, rfl⟩
  · simp [comprehensiveReportLines, comprehensiveHeader]
  · intro i hi
    match i with
    | 0 => rfl
    | 1 => rfl
    | 2 => rfl
    | 3 => exact absurd rfl hi
    | 4 => rfl
    | (n + 5) => rfl
  · simp [memoryReportLines, memoryReportHeader]
  · intro i hi
    match i with
    | 0 => rfl
    | 1 => rfl
    | 2 => rfl
    | 3 => exact absurd rfl hi
    | 4 => rfl
    | 5 => rfl
    | (n + 6) => rfl

/-- C9 witness: the amended theorem applied at concrete inputs and a
concrete non-timestamp line index. -/
theorem c9_render_determinism_app :
    (comprehensiveReportLines (fun _ => none) "synth" "A")[0]? =
      (comprehensiveReportLines (fun _ => none) "synth" "B")[0]? ∧
    (memoryReportLines memDemoResults "fft" "A")[3]? = some ("**Generated:** " ++ "A") :=
  ⟨(c9_render_determinism (fun _ => none) "synth" "A" "B" memDemoResults "fft").2.1 0
      (by decide),
   (c9_render_determinism (fun _ => none) "synth" "A" "B" memDemoResults "fft").2.2.2.2.2⟩

/-! ## C6: round-tripping the rendered report through the memory-analysis parser -/

theorem isPrefixOf_append (p a b : List Char) (h : p.isPrefixOf a = true) :
    p.isPrefixOf (a ++ b) = true := by
  induction p generalizing a with
  | nil => cases a ++ b <;> rfl
  | cons x p2 ih =>
    cases a with
    | nil => simp [List.isPrefixOf] at h
    | cons y a2 =>
      simp only [List.isPrefixOf, List.cons_append] at h ⊢
      rw [Bool.and_eq_true] at h ⊢
      exact ⟨h.1, ih a2 h.2⟩

theorem hasSub_nil_pat (b : List Char) : hasSub [] b = true := by
  cases b <;> simp [hasSub, List.isPrefixOf]

theorem hasSub_append_left (pat a b : List Char) (h : hasSub pat a = true) :
    hasSub pat (a ++ b) = true := by
  induction a with
  | nil =>
    simp only [hasSub, List.isEmpty_iff] at h
    subst h
    exact hasSub_nil_pat b
  | cons c t ih =>
    simp only [hasSub, Bool.or_eq_true] at h
    simp only [List.cons_append, hasSub, Bool.or_eq_true]
    rcases h with h1 | h2
    · left
      have := isPrefixOf_append pat (c :: t) b h1
      rwa [List.cons_append] at this
    · exact Or.inr (ih h2)

theorem hasSub_append_right (pat a b : List Char) (h : hasSub pat b = true) :
    hasSub pat (a ++ b) = true := by
  induction a with
  | nil => exact h
  | cons c t ih =>
    simp only [List.cons_append, hasSub, Bool.or_eq_true]
    exact Or.inr ih

/-- An occurrence inside any line survives joining the lines with
newlines. -/
theorem hasSub_joinNl (pat : List Char) : ∀ (ls : List (List Char)) (l : List Char),
    l ∈ ls → hasSub pat l = true → hasSub pat (joinNl ls) = true := by
  intro ls
  induction ls with
  | nil =>
    intro l hl
    cases hl
  | cons a ls2 ih =>
    intro l hl hsub
    rcases List.mem_cons.mp hl with h1 | h2
    · subst h1
      cases ls2 with
      | nil => exact hsub
      | cons b ls3 => exact hasSub_append_left pat l ('\n' :: joinNl (b :: ls3)) hsub
    · cases ls2 with
      | nil => cases h2
      | cons b ls3 =>
        have hrec := ih l h2 hsub
        have h2b : hasSub pat ('\n' :: joinNl (b :: ls3)) = true :=
          hasSub_append_right pat ['\n'] (joinNl (b :: ls3)) hrec
        exact hasSub_append_right pat a ('\n' :: joinNl (b :: ls3)) h2b

theorem splitNl_no_newline (l : List Char) (h : '\n' ∉ l) : splitNl l = [l] := by
  induction l with
  | nil => rfl
  | cons c t ih =>
    have hc : ¬(c = '\n') := fun he => h (by rw [he]; exact List.mem_cons_self _ _)
    simp only [splitNl]
    rw [if_neg hc, ih (fun hm => h (List.mem_cons_of_mem c hm))]

theorem splitNl_append_newline (l rest : List Char) (h : '\n' ∉ l) :
    splitNl (l ++ '\n' :: rest) = l :: splitNl rest := by
  induction l with
  | nil =>
    show splitNl ('\n' :: rest) = [] :: splitNl rest
    simp [splitNl]
  | cons c t ih =>
    have hc : ¬(c = '\n') := fun he => h (by rw [he]; exact List.mem_cons_self _ _)
    show splitNl (c :: (t ++ '\n' :: rest)) = (c :: t) :: splitNl rest
    simp only [splitNl]
    rw [if_neg hc, ih (fun hm => h (List.mem_cons_of_mem c hm))]

/-- Splitting on newlines is the inverse of joining newline-free lines:
Python's `"\n".join(lines).split('\n') == lines`. -/
theorem splitNl_joinNl : ∀ (ls : List (List Char)), ls ≠ [] → (∀ l ∈ ls, '\n' ∉ l) →
    splitNl (joinNl ls) = ls := by
  intro ls
  induction ls with
  | nil =>
    intro h
    cases h rfl
  | cons a ls2 ih =>
    intro _ hnl
    cases ls2 with
    | nil => exact splitNl_no_newline a (hnl a (List.mem_cons_self _ _))
    | cons b ls3 =>
      show splitNl (a ++ '\n' :: joinNl (b :: ls3)) = a :: b :: ls3
      rw [splitNl_append_newline a _ (hnl a (List.mem_cons_self _ _))]
      rw [ih (by simp) (fun l hl => hnl l (List.mem_cons_of_mem _ hl))]

/-- C6: the round-trip fails on the code.  Rendering the comprehensive
report from an `fft_engine` stats file with 3000 cells produces a document
whose total is the line `- **Reported Modules**: ~3000 cells`, but the only
line containing `Total Gate Count:` is the heading
`### **Estimated Total Gate Count:**`, so the memory-analysis parser's
`line.split(":")[1].strip()` reads back the markdown fragment `**` instead
of the rendered total 3000. -/
theorem c6_roundtrip_total_gates :
    totalCellsOf (collectModuleStats fsStatsDemo "synth") = 3000 ∧
    "- **Reported Modules**: ~3000 cells" ∈ reportLinesDemo ∧
    (analyzeMemoryUsageResults fsReportDemo "proj").overall_total_gates =
      some "**".toList ∧
    "**".toList ≠ "3000".toList := by
  refine ⟨by with_unfolding_all decide, by with_unfolding_all decide, ?_, by decide⟩
  have hfs : fsReportDemo (gateReportPath "proj") = some reportTextDemo := by
    unfold fsReportDemo
    rw [if_pos rfl]
  have hogt : (analyzeMemoryUsageResults fsReportDemo "proj").overall_total_gates =
      if hasSub lblTotalGateCount reportTextDemo then
        firstLineField lblTotalGateCount reportTextDemo
      else none := by
    show (match fsReportDemo (gateReportPath "proj") with
      | none => none
      | some content =>
        if hasSub lblTotalGateCount content then firstLineField lblTotalGateCount content
        else none) = _
    rw [hfs]
  have hmemline : "### **Estimated Total Gate Count:**" ∈ reportLinesDemo := by
    with_unfolding_all decide
  have hsub : hasSub lblTotalGateCount reportTextDemo = true := by
    show hasSub lblTotalGateCount (joinNl (reportLinesDemo.map String.toList)) = true
    exact hasSub_joinNl _ _ ("### **Estimated Total Gate Count:**".toList)
      (List.mem_map_of_mem String.toList hmemline) (by decide)
  have hsplit : splitNl reportTextDemo = reportLinesDemo.map String.toList := by
    show splitNl (joinNl (reportLinesDemo.map String.toList)) = _
    refine splitNl_joinNl _ ?_ ?_
    · with_unfolding_all decide
    · with_unfolding_all decide
  rw [hogt, hsub, if_pos rfl]
  show ((splitNl reportTextDemo).find? (fun l => hasSub lblTotalGateCount l)).map
    (fun l => pyStrip (secondColonField l)) = some "**".toList
  rw [hsplit]
  with_unfolding_all decide
